import Mathlib

/-! # dbutil: connection configuration, name derivation and the migration runner

A shallow embedding of the Go package `dbutil` (`db.go`, `dbutils.go`,
`postgresutils.go`).  Go strings are modelled by `String`; the regular
expression calls go through a small matcher over `List Char`.
-/

namespace Dbutil

/-! ## Regular expressions (the fragment of `regexp` syntax the package uses) -/

/-- Regular expressions over characters.  `cls p` is a character class given by
its membership test; `alt` only arises from taking derivatives. -/
inductive Re where
  | fail : Re
  | eps : Re
  | cls (p : Char → Bool) : Re
  | cat (a b : Re) : Re
  | alt (a b : Re) : Re
  | star (a : Re) : Re

namespace Re

/-- One or more repetitions: the operator `+` of the pattern syntax. -/
def plus (a : Re) : Re := cat a (star a)

/-- A literal piece of pattern text. -/
def lit : List Char → Re
  | [] => eps
  | c :: cs => cat (cls (fun d => d == c)) (lit cs)

/-- Does the expression accept the empty string. -/
def nullable : Re → Bool
  | fail => false
  | eps => true
  | cls _ => false
  | cat a b => nullable a && nullable b
  | alt a b => nullable a || nullable b
  | star _ => true

/-- Derivative of an expression by one character. -/
def deriv : Re → Char → Re
  | fail, _ => fail
  | eps, _ => fail
  | cls p, c => if p c then eps else fail
  | cat a b, c =>
      if nullable a then alt (cat (deriv a c) b) (deriv b c) else cat (deriv a c) b
  | alt a b, c => alt (deriv a c) (deriv b c)
  | star a, c => cat (deriv a c) (star a)

/-- The whole text is matched by the expression. -/
def fullMatch : Re → List Char → Bool
  | r, [] => nullable r
  | r, c :: cs => fullMatch (deriv r c) cs

/-- Some prefix of the text is matched by the expression. -/
def prefixMatch : Re → List Char → Bool
  | r, [] => nullable r
  | r, c :: cs => nullable r || prefixMatch (deriv r c) cs

/-- Declarative meaning of an expression: the texts it accepts. -/
inductive Matches : Re → List Char → Prop
  | eps : Matches Re.eps []
  | cls {p : Char → Bool} {c : Char} : p c = true → Matches (Re.cls p) [c]
  | cat {a b : Re} {s t : List Char} : Matches a s → Matches b t → Matches (Re.cat a b) (s ++ t)
  | altL {a b : Re} {s : List Char} : Matches a s → Matches (Re.alt a b) s
  | altR {a b : Re} {s : List Char} : Matches b s → Matches (Re.alt a b) s
  | starNil {a : Re} : Matches (Re.star a) []
  | starCons {a : Re} {s t : List Char} :
      Matches a s → Matches (Re.star a) t → Matches (Re.star a) (s ++ t)

end Re

/-- The call `regexp.MatchString(pattern, s)` for a pattern without anchors: some
substring of the text is matched. -/
def MatchString (r : Re) : List Char → Bool
  | [] => r.nullable
  | c :: cs => r.prefixMatch (c :: cs) || MatchString r cs

/-- The call `re.FindAllString(s, -1)` for a pattern `body$` whose body does not
accept the empty string.  `$` (without the multi-line flag) holds only at the
end of the text, so a match is a suffix of the text accepted by the body; the
leftmost one is reported and, as it runs to the end of the text, it is the only
one. -/
def FindAllString (body : Re) : List Char → List (List Char)
  | [] => []
  | c :: cs => if body.fullMatch (c :: cs) then [c :: cs] else FindAllString body cs

/-- The call `strings.TrimLeft(s, cutset)`: drop the leading characters that
occur in the cutset. -/
def TrimLeft (s cutset : List Char) : List Char :=
  s.dropWhile (fun c => cutset.contains c)

/-! ## `dbutils.go`: name derivation -/

/-- The class `[A-Za-z0-9_-]`. -/
def isIdentChar (c : Char) : Bool :=
  ('A' ≤ c && c ≤ 'Z') || ('a' ≤ c && c ≤ 'z') || ('0' ≤ c && c ≤ '9') || c == '_' || c == '-'

/-- The class `[\/]`: inside a class `\/` is an escaped slash, so the class holds
the slash only. -/
def isSlashClass (c : Char) : Bool := c == '/'

/-- The pattern `.` without the `s` flag: any character but a line feed. -/
def isDot (c : Char) : Bool := c != '\n'

/-- The body of the pattern `[\/]([A-Za-z0-9_-]+).sql$` compiled in `getFileName`
(the group does not change what is matched). -/
def fileNameRe : Re :=
  Re.cat (Re.cls isSlashClass)
    (Re.cat (Re.plus (Re.cls isIdentChar)) (Re.cat (Re.cls isDot) (Re.lit "sql".data)))

/-- The function `getFileName` of `dbutils.go`. -/
def getFileName (fullpath : String) : String :=
  let found := FindAllString fileNameRe fullpath.data
  match found with
  | [] => fullpath
  | m :: _ => String.mk (TrimLeft m "\\/".data)

/-- The record type `migrationVersion`; a `nil` pointer field is `none`. -/
structure migrationVersion where
  ID : Option Int := none
  MigrationName : Option String := none
  Fullpath : Option String := none
  SQL : Option String := none
  Date : Option Nat := none
deriving DecidableEq

/-- The constructor `NewMigrationVersion`; `now` is the reading of `time.Now()`. -/
def NewMigrationVersion (now : Nat) (fullpath sql : String) : migrationVersion :=
  let migrationName := getFileName fullpath
  { Fullpath := some fullpath, SQL := some sql, Date := some now,
    MigrationName := some migrationName }

/-- The method `HasRun`. -/
def migrationVersion.HasRun (mv : migrationVersion) : Bool :=
  mv.ID != none && mv.Date != none

/-! ## `db.go`: configuration -/

/-- Value of `*gorm.DB` held by a configuration: the handle of an opened
connection, identified by the DSN it was opened with. -/
structure Conn where
  dsn : String
deriving DecidableEq

/-- The implementations of the interface `DBUtil` registered in `init`. -/
inductive DBUtil where
  | postgres : DBUtil
deriving DecidableEq

/-- The struct `DB`. -/
structure DB where
  Database : String := ""
  Port : Int := 0
  Driver : String := ""
  Host : String := ""
  SSLMode : String := ""
  User : String := ""
  Password : String := ""
  MigrationFolder : String := ""
  Conn : Option Conn := none
  Utils : Option DBUtil := none
deriving DecidableEq

/-- The map `driverToUtil` as filled by `init`. -/
def driverToUtil (driver : String) : Option DBUtil :=
  if driver = "postgres" then some DBUtil.postgres else none

/-! The constants of type `EnvReadMode` (`uint8`): `ReadAll` is 0 and the others
are `1 << iota` with `iota` counting from 1. -/

def ReadAll : Nat := 0
def ReadPassword : Nat := 1 <<< 1
def ReadHost : Nat := 1 <<< 2
def ReadUser : Nat := 1 <<< 3
def ReadName : Nat := 1 <<< 4
def ReadPort : Nat := 1 <<< 5
def ReadSSLMode : Nat := 1 <<< 6
def ReadDriver : Nat := 1 <<< 7

/-! The constants of type `DBOpenFlags` (`uint8`), laid out the same way. -/

namespace DBOpenFlags

def None : Nat := 0
def CreateIfNotExists : Nat := 1 <<< 1
def Migrate : Nat := 1 <<< 2
def PanicOnFailedMigration : Nat := 1 <<< 3
def SingularTable : Nat := 1 <<< 4
def SkipDefaultTransaction : Nat := 1 <<< 5

end DBOpenFlags

/-- Value of a run of decimal digits, most significant first. -/
def digitsValue (ds : List Char) : Nat :=
  ds.foldl (fun acc d => 10 * acc + (d.toNat - '0'.toNat)) 0

/-- The call `strconv.Atoi(s)`: the value and whether an error was returned.  An
optional sign is followed by one or more decimal digits; a syntax error gives 0
and a value outside the 64-bit `int` gives the nearest bound, both with an
error. -/
def Atoi (s : String) : Int × Bool :=
  let (neg, ds) :=
    match s.data with
    | '-' :: r => (true, r)
    | '+' :: r => (false, r)
    | r => (false, r)
  if ds.isEmpty || !(ds.all Char.isDigit) then (0, true)
  else
    let n := digitsValue ds
    if neg then
      if n ≤ 2 ^ 63 then (-(n : Int), false) else (-(2 ^ 63 : Int), true)
    else
      if n < 2 ^ 63 then ((n : Int), false) else ((2 ^ 63 : Int) - 1, true)

/-- The call `strconv.Itoa(i)`. -/
def Itoa (i : Int) : String :=
  match i with
  | Int.ofNat n => Nat.repr n
  | Int.negSucc n => "-" ++ Nat.repr (n + 1)

/-- The method `ReadFromOS`; `lookupEnv` is `os.LookupEnv` and the receiver is
not `nil`.  Returns `found` and the configuration left in the receiver. -/
def DB.ReadFromOS (lookupEnv : String → Option String) (mode : Nat) (overwrite : Bool)
    (db : DB) : Bool × DB := Id.run do
  let mut _db : DB := {}
  let mut found := false
  let mut portOK := false
  let pwd := lookupEnv "dbpassword"
  let pwdOK := pwd.isSome
  if pwdOK then
    _db := { _db with Password := pwd.getD "" }
    if mode &&& ReadPassword > 0 then
      found := true
  let host := lookupEnv "dbhost"
  let hostOK := host.isSome
  if hostOK then
    _db := { _db with Host := host.getD "" }
    if mode &&& ReadHost > 0 then
      found := true
  let name := lookupEnv "dbname"
  let nameOK := name.isSome
  if nameOK then
    _db := { _db with Database := name.getD "" }
    if mode &&& ReadName > 0 then
      found := true
  let port := lookupEnv "dbport"
  portOK := port.isSome
  if portOK then
    let (v, err) := Atoi (port.getD "")
    _db := { _db with Port := v }
    if err then
      portOK := false
    if mode &&& ReadPort > 0 then
      found := true
  let sslMode := lookupEnv "dbsslmode"
  let sslModeOK := sslMode.isSome
  if sslModeOK then
    _db := { _db with SSLMode := sslMode.getD "" }
    if mode &&& ReadSSLMode > 0 then
      found := true
  let user := lookupEnv "dbuser"
  let userOK := user.isSome
  if userOK then
    _db := { _db with User := user.getD "" }
    if mode &&& ReadUser > 0 then
      found := true
  let driver := lookupEnv "dbdriver"
  let driverOK := driver.isSome
  if driverOK then
    _db := { _db with Driver := driver.getD "" }
    if mode &&& ReadDriver > 0 then
      found := true
  if mode = ReadAll then
    found := sslModeOK || driverOK || pwdOK || hostOK || nameOK || portOK || userOK
  if found && overwrite then
    return (found, _db)
  else
    return (found, db)

/-! ## `postgresutils.go`: the Postgres adapter -/

/-- The class `\w`. -/
def isWordChar (c : Char) : Bool :=
  ('0' ≤ c && c ≤ '9') || ('A' ≤ c && c ≤ 'Z') || ('a' ≤ c && c ≤ 'z') || c == '_'

/-- The pattern `database "\w+" does not exist`. -/
def databaseNotExistRe : Re :=
  Re.cat (Re.lit "database \"".data)
    (Re.cat (Re.plus (Re.cls isWordChar)) (Re.lit "\" does not exist".data))

/-- The pattern `relation "\w+" does not exist`. -/
def tableNotExistRe : Re :=
  Re.cat (Re.lit "relation \"".data)
    (Re.cat (Re.plus (Re.cls isWordChar)) (Re.lit "\" does not exist".data))

/-- The method `IsDatabaseNotExistError`, on the text `err.Error()`. -/
def PostgresDBUtils.IsDatabaseNotExistError (err : String) : Bool :=
  MatchString databaseNotExistRe err.data

/-- The method `IsTableNotExistError`, on the text `err.Error()`. -/
def PostgresDBUtils.IsTableNotExistError (err : String) : Bool :=
  MatchString tableNotExistRe err.data

/-- The method `PostgresDBUtils.DSN`. -/
def PostgresDBUtils.DSN (db : DB) : String := Id.run do
  let mut dsn := ""
  if db.Database ≠ "" then
    dsn := dsn ++ ("dbname=" ++ db.Database ++ " ")
  if db.Host ≠ "" then
    dsn := dsn ++ ("host=" ++ db.Host ++ " ")
  if db.Port ≠ 0 then
    dsn := dsn ++ ("port=" ++ Itoa db.Port ++ " ")
  if db.User ≠ "" then
    dsn := dsn ++ ("user=" ++ db.User ++ " ")
  if db.Password ≠ "" then
    dsn := dsn ++ ("password=" ++ db.Password ++ " ")
  if db.SSLMode = "require" ∨ db.SSLMode = "allow" then
    dsn := dsn ++ ("sslmode=" ++ db.SSLMode ++ " ")
  else
    dsn := dsn ++ "sslmode=disable "
  return dsn

/-- The method `MigrationTableName`. -/
def PostgresDBUtils.MigrationTableName : String := "migration_version"

/-! ## The database and the outcomes of input and output -/

/-- A stored row of the bookkeeping table.  The identity column is the
prioritized primary key, so a stored row always has one. -/
structure Row where
  ID : Int
  MigrationName : Option String
  Fullpath : Option String
  SQL : Option String
  Date : Option Nat
deriving DecidableEq

/-- The record a query scans a stored row into. -/
def Row.toRecord (r : Row) : migrationVersion :=
  { ID := some r.ID, MigrationName := r.MigrationName, Fullpath := r.Fullpath,
    SQL := r.SQL, Date := r.Date }

/-- The committed state of the database server: the rows of the bookkeeping
table, the migration statements whose effects are committed (in order), and the
sequence behind the auto-increment column, which is not transactional. -/
structure DBState where
  rows : List Row := []
  executed : List String := []
  nextID : Int := 1
deriving DecidableEq

/-- The view of an open transaction: the committed state it started from
together with its own uncommitted writes. -/
structure Tx where
  rows : List Row
  executed : List String
deriving DecidableEq

/-- The query `tx.Where(migrationVersion{MigrationName: &name}).First(&_mv)`:
among the rows with that migration name, the one with the least identity. -/
def Tx.First (rows : List Row) (name : String) : Option Row :=
  (rows.filter (fun r => r.MigrationName == some name)).foldl
    (fun best r =>
      match best with
      | none => some r
      | some b => if r.ID < b.ID then some r else some b)
    none

/-- The insert `tx.Create(mv)`: the row stored for a record, with the identity
drawn from the sequence when the record has none. -/
def Tx.Create (nextID : Int) (mv : migrationVersion) : Row :=
  { ID := mv.ID.getD nextID, MigrationName := mv.MigrationName, Fullpath := mv.Fullpath,
    SQL := mv.SQL, Date := mv.Date }

/-- The error type `*fs.PathError` of package `os`, without its path. -/
structure PathError where
  Op : String
  Err : String
deriving DecidableEq

/-- The text `(*PathError).Error()` for the path the call was made with. -/
def PathError.Error (path : String) (e : PathError) : String :=
  e.Op ++ " " ++ path ++ ": " ++ e.Err

/-- What the file system and the database server answer during one run of
`Migrate`.  Each field is the outcome of one call of the source; the calls made
inside the loop are indexed by the path of the file being processed.  An error
is given by its text, `none` meaning success. -/
structure Env where
  /-- Outcome of `db.getMigrationFiles()`: the paths, in directory-listing order. -/
  files : Except String (List String)
  /-- Outcome of `db.Conn.Begin()` in `Migrate`. -/
  beginErr : Option String := none
  /-- Outcome of `db.Conn.Begin()` in `CreateMigrationTable`. -/
  probeBeginErr : Option String := none
  /-- Outcome of the probing `tx.Create(mv)` in `CreateMigrationTable`. -/
  probeErr : Option String := none
  /-- Outcome of `db.Conn.AutoMigrate(migrationVersion{})`. -/
  autoMigrateErr : Option String := none
  /-- Outcome of `os.ReadFile(fn)`. -/
  readFile : String → Except PathError String
  /-- Error of the record lookup for file `fn`, other than `ErrRecordNotFound`. -/
  firstErr : String → Option String := fun _ => none
  /-- Outcome of `tx.Exec(sql)` for file `fn`. -/
  execErr : String → Option String := fun _ => none
  /-- Outcome of `tx.Create(NewMigrationVersion(fn, sql))`. -/
  createErr : String → Option String := fun _ => none
  /-- Outcome of `tx.Commit()`. -/
  commitErr : Option String := none
  /-- Reading of `time.Now()`. -/
  now : Nat := 0

/-- The calls a run issues to the file system and the database, each with the
file being processed and its outcome. -/
inductive Event where
  | readDir (err : Option String) : Event
  | begin (err : Option String) : Event
  | probe (err : Option String) : Event
  | autoMigrate (err : Option String) : Event
  | tableCheck (err : Option String) : Event
  | read (fn : String) (err : Option PathError) : Event
  | first (fn : String) (err : Option String) : Event
  | exec (fn sql : String) (err : Option String) : Event
  | create (fn : String) (err : Option String) : Event
  | commit (err : Option String) : Event
  | rollback : Event
deriving DecidableEq

/-- The method `PostgresDBUtils.CreateMigrationTable`: the returned error, the
state of the database afterwards and the calls issued on the connection. -/
def PostgresDBUtils.CreateMigrationTable (env : Env) (w : DBState) :
    Option String × DBState × List Event :=
  match env.probeBeginErr with
  | some e => (some ("Could not begin transaction: " ++ e), w, [Event.begin (some e)])
  | none =>
    -- defer tx.Rollback()
    match env.probeErr with
    | some err =>
      if PostgresDBUtils.IsTableNotExistError err then
        match env.autoMigrateErr with
        | some e =>
          (some ("Could not create table: " ++ e), w,
            [Event.begin none, Event.probe (some err), Event.autoMigrate (some e),
              Event.rollback])
        | none =>
          (none, w,
            [Event.begin none, Event.probe (some err), Event.autoMigrate none, Event.rollback])
      else
        (none, w, [Event.begin none, Event.probe (some err), Event.rollback])
    | none =>
      (none, { w with nextID := w.nextID + 1 },
        [Event.begin none, Event.probe none, Event.rollback])

/-- State threaded through the loop of `Migrate`: the view of the transaction
and the sequence. -/
structure Run where
  tx : Tx
  nextID : Int
deriving DecidableEq

/-- The loop `for _, fn := range files` of `Migrate`: either the error returned
from inside the loop or the final `nChanges`, with the state reached and the
calls issued. -/
def migrateLoop (env : Env) : List String → Nat → Run → Except String Nat × Run × List Event
  | [], nChanges, st => (Except.ok nChanges, st, [])
  | fn :: rest, nChanges, st =>
    let cfn := getFileName fn
    match env.readFile fn with
    | Except.error e =>
      (Except.error ("Could not read query file: " ++ e.Error fn), st, [Event.read fn (some e)])
    | Except.ok b =>
      match env.firstErr fn with
      | some e =>
        (Except.error ("Could not find migration_version record: " ++ e), st,
          [Event.read fn none, Event.first fn (some e)])
      | none =>
        let _mv : migrationVersion :=
          match Tx.First st.tx.rows cfn with
          | some r => r.toRecord
          | none => {}
        if _mv.HasRun then
          let r := migrateLoop env rest nChanges st
          (r.1, r.2.1, [Event.read fn none, Event.first fn none] ++ r.2.2)
        else
          let sql := b
          match env.execErr fn with
          | some e =>
            (Except.error ("Could not execute query in '" ++ fn ++ "': " ++ e), st,
              [Event.read fn none, Event.first fn none, Event.exec fn sql (some e)])
          | none =>
            match env.createErr fn with
            | some e =>
              (Except.error
                  ("Could not create '" ++ PostgresDBUtils.MigrationTableName ++ "' record: " ++ e),
                { st with tx := { st.tx with executed := st.tx.executed ++ [sql] } },
                [Event.read fn none, Event.first fn none, Event.exec fn sql none,
                  Event.create fn (some e)])
            | none =>
              let r := migrateLoop env rest (nChanges + 1)
                { tx :=
                    { rows := st.tx.rows ++
                        [Tx.Create st.nextID (NewMigrationVersion env.now fn sql)]
                      executed := st.tx.executed ++ [sql] }
                  nextID := st.nextID + 1 }
              (r.1, r.2.1,
                [Event.read fn none, Event.first fn none, Event.exec fn sql none,
                  Event.create fn none] ++ r.2.2)

/-- The method `DB.Migrate`: the returned error (`none` for `nil`), the committed
state of the database afterwards and the calls issued. -/
def DB.Migrate (env : Env) (db : DB) (w : DBState) : Option String × DBState × List Event :=
  match env.files with
  | Except.error err =>
    (some ("Could not find migration files: " ++ err), w, [Event.readDir (some err)])
  | Except.ok files =>
    match env.beginErr with
    | some e =>
      (some ("Could not begin migration transaction: " ++ e), w,
        [Event.readDir none, Event.begin (some e)])
    | none =>
      -- defer tx.Rollback()
      let tx : Tx := { rows := w.rows, executed := w.executed }
      match PostgresDBUtils.CreateMigrationTable env w with
      | (some err, w1, _) =>
        (some ("Error creating migration table in database '" ++ db.Database ++ "': " ++ err),
          w1, [Event.readDir none, Event.begin none, Event.tableCheck (some err), Event.rollback])
      | (none, w1, _) =>
        match migrateLoop env files 0 { tx := tx, nextID := w1.nextID } with
        | (Except.error err, st, evs) =>
          (some err, { w1 with nextID := st.nextID },
            [Event.readDir none, Event.begin none, Event.tableCheck none] ++ evs ++
              [Event.rollback])
        | (Except.ok nChanges, st, evs) =>
          if nChanges > 0 then
            match env.commitErr with
            | some e =>
              (some ("Could not commit transaction: " ++ e), { w1 with nextID := st.nextID },
                [Event.readDir none, Event.begin none, Event.tableCheck none] ++ evs ++
                  [Event.commit (some e), Event.rollback])
            | none =>
              (none, { rows := st.tx.rows, executed := st.tx.executed, nextID := st.nextID },
                [Event.readDir none, Event.begin none, Event.tableCheck none] ++ evs ++
                  [Event.commit none, Event.rollback])
          else
            (none, { w1 with nextID := st.nextID },
              [Event.readDir none, Event.begin none, Event.tableCheck none] ++ evs ++
                [Event.rollback])

/-! ## Observations on the calls of a run -/

/-- A failed step of `Migrate`: a call whose error makes `Migrate` return before
it reaches the commit. -/
def Event.isFailure : Event → Bool
  | Event.readDir (some _) => true
  | Event.begin (some _) => true
  | Event.tableCheck (some _) => true
  | Event.read _ (some _) => true
  | Event.first _ (some _) => true
  | Event.exec _ _ (some _) => true
  | Event.create _ (some _) => true
  | _ => false

/-- A commit of the migration transaction was issued. -/
def Event.isCommit : Event → Bool
  | Event.commit _ => true
  | _ => false

/-- A migration newly applied: its record was inserted (`nChanges++`). -/
def Event.isApplied : Event → Bool
  | Event.create _ none => true
  | _ => false

/-- A write issued on the migration transaction: a statement execution, a record
insert or a commit. -/
def Event.isWrite : Event → Bool
  | Event.exec _ _ _ => true
  | Event.create _ _ => true
  | Event.commit _ => true
  | _ => false

/-- The text `part` occurs in the text `msg`. -/
def Contains (msg part : String) : Prop := part.data <:+: msg.data

instance (msg part : String) : Decidable (Contains msg part) :=
  inferInstanceAs (Decidable (part.data <:+: msg.data))

/-! ## Opening a connection -/

/-- What the outside world answers during one call of `Open`. -/
structure OpenEnv where
  /-- Outcome of `gorm.Open` in `CreateIfNotExists`. -/
  probeOpenErr : Option String := none
  /-- Outcome of `sql.Open` in `CreateTable`. -/
  sqlOpenErr : Option String := none
  /-- Outcome of the `CREATE DATABASE` statement in `CreateTable`. -/
  createDatabaseErr : Option String := none
  /-- Outcome of `gorm.Open` in `OpenConnection`. -/
  openErr : Option String := none
  /-- The library call `fmt.Errorf(format)` with a format string and no operands:
  the text of the error it builds.  A `%` in the format is read as the start of
  a verb, so the text is in general not the format itself. -/
  errorf : String → String
  /-- Answers during the migration run started by `OpenConnection`. -/
  run1 : Env
  /-- Answers during the migration run started by `Open` itself. -/
  run2 : Env

/-- How a call ends: it returns an error value (`none` for `nil`) or it panics. -/
inductive Outcome where
  | returned (err : Option String) : Outcome
  | panicked (msg : String) : Outcome
deriving DecidableEq

/-- The method `PostgresDBUtils.CreateTable`. -/
def PostgresDBUtils.CreateTable (env : OpenEnv) (_db : DB) : Option String :=
  match env.sqlOpenErr with
  | none =>
    match env.createDatabaseErr with
    | some err => some ("Could not create Postgres database: " ++ err)
    | none => none
  | some err => some ("Could not connect to postgres database: " ++ err)

/-- The method `PostgresDBUtils.CreateIfNotExists`: the returned error and the
configuration with the connection it may have stored. -/
def PostgresDBUtils.CreateIfNotExists (env : OpenEnv) (db : DB) : Option String × DB :=
  match env.probeOpenErr with
  | some err =>
    if !PostgresDBUtils.IsDatabaseNotExistError err then
      (some ("Database does not exist: " ++ err), db)
    else
      (PostgresDBUtils.CreateTable env db, db)
  | none => (none, { db with Conn := some { dsn := PostgresDBUtils.DSN db } })

/-- The method `PostgresDBUtils.OpenConnection`. -/
def PostgresDBUtils.OpenConnection (env : OpenEnv) (db : DB) (flags : Nat) (w : DBState) :
    Outcome × DB × DBState :=
  match env.openErr with
  | some err => (Outcome.returned (some ("Failed to connect to database: " ++ err)), db, w)
  | none =>
    let db := { db with Conn := some { dsn := PostgresDBUtils.DSN db } }
    if flags &&& DBOpenFlags.Migrate > 0 then
      match DB.Migrate env.run1 db w with
      | (some err, w1, _) =>
        let errMsg := "Could not migrate the '" ++ db.Database ++ "' database: " ++ err
        if flags &&& DBOpenFlags.PanicOnFailedMigration > 0 then
          (Outcome.panicked errMsg, db, w1)
        else
          (Outcome.returned (some (env.errorf errMsg)), db, w1)
      | (none, w1, _) => (Outcome.returned none, db, w1)
    else
      (Outcome.returned none, db, w)

/-- The method `DB.Open`.  A configuration without `Utils` panics at the first
call through the interface. -/
def DB.Open (env : OpenEnv) (db : DB) (flags : Nat) (w : DBState) : Outcome × DB × DBState :=
  match db.Utils with
  | none => (Outcome.panicked "runtime error: invalid memory address or nil pointer dereference",
      db, w)
  | some DBUtil.postgres =>
    let created : Option String × DB :=
      if flags &&& DBOpenFlags.CreateIfNotExists > 0 then
        PostgresDBUtils.CreateIfNotExists env db
      else (none, db)
    match created with
    | (some err, db1) =>
      (Outcome.returned (some ("Failed to create the db on open: " ++ err)), db1, w)
    | (none, db1) =>
      match PostgresDBUtils.OpenConnection env db1 flags w with
      | (Outcome.panicked msg, db2, w1) => (Outcome.panicked msg, db2, w1)
      | (Outcome.returned (some err), db2, w1) =>
        (Outcome.returned (some ("Could not open connection to database: " ++ err)), db2, w1)
      | (Outcome.returned none, db2, w1) =>
        if flags &&& DBOpenFlags.Migrate > 0 then
          match DB.Migrate env.run2 db2 w1 with
          | (some err, w2, _) =>
            (Outcome.returned
                (some ("Could not migrate database '" ++ db2.Database ++ "': " ++ err)),
              db2, w2)
          | (none, w2, _) => (Outcome.returned none, db2, w2)
        else
          (Outcome.returned none, db2, w1)

/-! ## Statements about runs -/

/-- Every stored row carries a timestamp. -/
def Dated (rows : List Row) : Prop := ∀ r ∈ rows, r.Date ≠ none

/-- Every file of the list has a row stored under its derived name. -/
def Covered (rows : List Row) (files : List String) : Prop :=
  ∀ fn ∈ files, ∃ r ∈ rows, r.MigrationName = some (getFileName fn)

/-- One segment `key=value ` of a connection string, present or left out. -/
def segment (key value : String) (present : Bool) : String :=
  if present then key ++ "=" ++ value ++ " " else ""

/-- The value of the `sslmode` segment. -/
def sslValue (mode : String) : String :=
  if mode = "require" ∨ mode = "allow" then mode else "disable"

/-! ## Scenarios -/

/-- A migration folder with two files. -/
def twoFiles : List String := ["/schema/001_init.sql", "/schema/002_seed.sql"]

/-- An environment in which every call succeeds: the two files of `twoFiles`
are readable and any other path is missing. -/
def scenarioEnv : Env :=
  { files := Except.ok twoFiles
    readFile := fun fn =>
      if fn = "/schema/001_init.sql" then Except.ok "CREATE TABLE t(id int)"
      else if fn = "/schema/002_seed.sql" then Except.ok "INSERT INTO t VALUES (1)"
      else Except.error { Op := "open", Err := "no such file or directory" }
    now := 1700000000 }

/-- As `scenarioEnv`, but the statement of the second file fails. -/
def seedFailsEnv : Env :=
  { scenarioEnv with
    execErr := fun fn =>
      if fn = "/schema/002_seed.sql" then some "pq: permission denied for table t" else none }

/-- As `scenarioEnv`, but the record of the second file cannot be inserted. -/
def insertFailsEnv : Env :=
  { scenarioEnv with
    createErr := fun fn =>
      if fn = "/schema/002_seed.sql" then some "pq: could not serialize access" else none }

/-- As `scenarioEnv`, but the record lookup for the second file fails. -/
def lookupFailsEnv : Env :=
  { scenarioEnv with
    firstErr := fun fn =>
      if fn = "/schema/002_seed.sql" then some "driver: bad connection" else none }

/-- As `scenarioEnv`, but the transaction cannot be begun. -/
def beginFailsEnv : Env :=
  { scenarioEnv with beginErr := some "driver: bad connection" }

/-- As `scenarioEnv`, but the probing insert of the table check is refused for a
reason other than a missing table. -/
def probeDeniedEnv : Env :=
  { scenarioEnv with probeErr := some "pq: permission denied for table migration_versions" }

/-- A bookkeeping table holding a row for the first file that has no timestamp. -/
def undatedStore : DBState :=
  { rows :=
      [{ ID := 1, MigrationName := some "001_init.sql",
         Fullpath := some "/schema/001_init.sql", SQL := some "CREATE TABLE t(id int)",
         Date := none }]
    nextID := 2 }

/-- A configuration for a Postgres database named `shop`. -/
def shopConfig : DB :=
  { Database := "shop", Port := 5432, Driver := "postgres", Host := "db.internal",
    User := "app", Utils := some DBUtil.postgres }

/-- A configuration for a Postgres database named `my-db`. -/
def myDbConfig : DB :=
  { Database := "my-db", Port := 5432, Driver := "postgres", Host := "db.internal",
    User := "app", Utils := some DBUtil.postgres }

/-- A process environment that only sets `dbport`, to a text that is no number. -/
def badPortEnv : String → Option String :=
  fun k => if k = "dbport" then some "notanumber" else none

/-- A process environment that sets none of the variables. -/
def emptyEnv : String → Option String := fun _ => none

/-- A process environment that sets `dbhost` and a `dbport` beyond the range of
`int`. -/
def hugePortEnv : String → Option String :=
  fun k =>
    if k = "dbhost" then some "db.internal"
    else if k = "dbport" then some "99999999999999999999" else none

/-- The environment `hugePortEnv` without `dbport`. -/
def hostOnlyEnv : String → Option String :=
  fun k => if k = "dbhost" then some "db.internal" else none

/-! # Theorems -/

namespace Re

theorem not_matches_fail (s : List Char) : ¬ Matches fail s := by
  intro h; cases h

theorem matches_eps_iff (s : List Char) : Matches eps s ↔ s = [] := by
  constructor
  · intro h; cases h; rfl
  · rintro rfl; exact Matches.eps

theorem matches_cls_iff (p : Char → Bool) (s : List Char) :
    Matches (cls p) s ↔ ∃ c, s = [c] ∧ p c = true := by
  constructor
  · intro h
    cases h with
    | cls hc => exact ⟨_, rfl, hc⟩
  · rintro ⟨c, rfl, hc⟩; exact Matches.cls hc

theorem matches_cat_iff (a b : Re) (s : List Char) :
    Matches (cat a b) s ↔ ∃ t u, s = t ++ u ∧ Matches a t ∧ Matches b u := by
  constructor
  · intro h
    cases h with
    | cat h1 h2 => exact ⟨_, _, rfl, h1, h2⟩
  · rintro ⟨t, u, rfl, h1, h2⟩; exact Matches.cat h1 h2

theorem matches_alt_iff (a b : Re) (s : List Char) :
    Matches (alt a b) s ↔ Matches a s ∨ Matches b s := by
  constructor
  · intro h
    cases h with
    | altL h1 => exact Or.inl h1
    | altR h1 => exact Or.inr h1
  · rintro (h | h)
    · exact Matches.altL h
    · exact Matches.altR h

/-- A non-empty text accepted by a star splits off a non-empty first round. -/
theorem matches_star_cons_aux {r : Re} {x : List Char} (h : Matches r x) :
    ∀ (a : Re) (c : Char) (s : List Char), r = star a → x = c :: s →
      ∃ t u, s = t ++ u ∧ Matches a (c :: t) ∧ Matches (star a) u := by
  induction h with
  | eps => intro a c s hr; cases hr
  | cls _ => intro a c s hr; cases hr
  | cat _ _ _ _ => intro a c s hr; cases hr
  | altL _ _ => intro a c s hr; cases hr
  | altR _ _ => intro a c s hr; cases hr
  | starNil => intro a c s _ hx; cases hx
  | @starCons a0 s0 t0 h1 h2 _ ih2 =>
    intro a c s hr hx
    cases hr
    cases s0 with
    | nil => exact ih2 _ c s rfl (by simpa using hx)
    | cons d s1 =>
      simp only [List.cons_append, List.cons.injEq] at hx
      obtain ⟨rfl, rfl⟩ := hx
      exact ⟨s1, t0, rfl, h1, h2⟩

theorem matches_star_cons_iff (a : Re) (c : Char) (s : List Char) :
    Matches (star a) (c :: s) ↔
      ∃ t u, s = t ++ u ∧ Matches a (c :: t) ∧ Matches (star a) u := by
  constructor
  · intro h; exact matches_star_cons_aux h a c s rfl rfl
  · rintro ⟨t, u, rfl, h1, h2⟩
    exact Matches.starCons h1 h2

theorem nullable_iff (r : Re) : nullable r = true ↔ Matches r [] := by
  induction r with
  | fail => simp [nullable, not_matches_fail]
  | eps => simp [nullable, matches_eps_iff]
  | cls p => simp [nullable, matches_cls_iff]
  | cat a b iha ihb =>
    simp only [nullable, Bool.and_eq_true, iha, ihb, matches_cat_iff]
    constructor
    · rintro ⟨h1, h2⟩; exact ⟨[], [], rfl, h1, h2⟩
    · rintro ⟨t, u, h, h1, h2⟩
      have ht : t = [] := by
        cases t with
        | nil => rfl
        | cons _ _ => simp at h
      have hu : u = [] := by
        cases u with
        | nil => rfl
        | cons _ _ => simp at h
      subst ht; subst hu; exact ⟨h1, h2⟩
  | alt a b iha ihb =>
    simp only [nullable, Bool.or_eq_true, iha, ihb, matches_alt_iff]
  | star a _ =>
    simp only [nullable, true_iff]
    exact Matches.starNil

theorem deriv_iff (r : Re) (c : Char) : ∀ s, Matches (deriv r c) s ↔ Matches r (c :: s) := by
  induction r with
  | fail => intro s; simp [deriv, not_matches_fail]
  | eps => intro s; simp [deriv, not_matches_fail, matches_eps_iff]
  | cls p =>
    intro s
    simp only [deriv, matches_cls_iff]
    by_cases hp : p c = true
    · simp only [hp, if_true, matches_eps_iff]
      constructor
      · rintro rfl; exact ⟨c, rfl, hp⟩
      · rintro ⟨d, hd, _⟩; simp at hd; exact hd.2
    · simp only [hp, if_false, Bool.false_eq_true, not_matches_fail, false_iff]
      rintro ⟨d, hd, hd2⟩
      simp at hd
      rw [← hd.1] at hd2
      exact hp hd2
  | cat a b iha ihb =>
    intro s
    have key : Matches (cat a b) (c :: s) ↔
        (Matches a [] ∧ Matches b (c :: s)) ∨
          ∃ t u, s = t ++ u ∧ Matches a (c :: t) ∧ Matches b u := by
      rw [matches_cat_iff]
      constructor
      · rintro ⟨t, u, h, h1, h2⟩
        cases t with
        | nil => simp at h; subst h; exact Or.inl ⟨h1, h2⟩
        | cons d t1 =>
          simp only [List.cons_append, List.cons.injEq] at h
          obtain ⟨rfl, rfl⟩ := h
          exact Or.inr ⟨t1, u, rfl, h1, h2⟩
      · rintro (⟨h1, h2⟩ | ⟨t, u, rfl, h1, h2⟩)
        · exact ⟨[], c :: s, rfl, h1, h2⟩
        · exact ⟨c :: t, u, rfl, h1, h2⟩
    rw [key]
    simp only [deriv]
    by_cases hn : nullable a = true
    · simp only [hn, if_true, matches_alt_iff, matches_cat_iff, iha, ihb]
      have hn2 := (nullable_iff a).1 hn
      constructor
      · rintro (h | h)
        · exact Or.inr h
        · exact Or.inl ⟨hn2, h⟩
      · rintro (h | h)
        · exact Or.inr h.2
        · exact Or.inl h
    · simp only [hn, if_false, Bool.false_eq_true, matches_cat_iff, iha]
      constructor
      · intro h; exact Or.inr h
      · rintro (h | h)
        · exact absurd ((nullable_iff a).2 h.1) hn
        · exact h
  | alt a b iha ihb =>
    intro s
    simp only [deriv, matches_alt_iff, iha, ihb]
  | star a iha =>
    intro s
    simp only [deriv, matches_cat_iff, iha, matches_star_cons_iff]

theorem fullMatch_iff : ∀ (s : List Char) (r : Re), fullMatch r s = true ↔ Matches r s
  | [], r => by simp only [fullMatch, nullable_iff]
  | c :: cs, r => by simp only [fullMatch, fullMatch_iff cs, deriv_iff]

theorem prefixMatch_iff : ∀ (s : List Char) (r : Re),
    prefixMatch r s = true ↔ ∃ t u, s = t ++ u ∧ Matches r t
  | [], r => by
    simp only [prefixMatch, nullable_iff]
    constructor
    · intro h; exact ⟨[], [], rfl, h⟩
    · rintro ⟨t, u, h, h1⟩
      have ht : t = [] := by
        cases t with
        | nil => rfl
        | cons _ _ => simp at h
      subst ht; exact h1
  | c :: cs, r => by
    simp only [prefixMatch, Bool.or_eq_true, nullable_iff, prefixMatch_iff cs, deriv_iff]
    constructor
    · rintro (h | ⟨t, u, rfl, h1⟩)
      · exact ⟨[], c :: cs, rfl, h⟩
      · exact ⟨c :: t, u, rfl, h1⟩
    · rintro ⟨t, u, h, h1⟩
      cases t with
      | nil => exact Or.inl h1
      | cons d t1 =>
        simp only [List.cons_append, List.cons.injEq] at h
        obtain ⟨rfl, rfl⟩ := h
        exact Or.inr ⟨t1, u, rfl, h1⟩

end Re

theorem MatchString_iff (r : Re) : ∀ (s : List Char),
    MatchString r s = true ↔ ∃ p t u, s = p ++ t ++ u ∧ Re.Matches r t
  | [] => by
    simp only [MatchString, Re.nullable_iff]
    constructor
    · intro h; exact ⟨[], [], [], rfl, h⟩
    · rintro ⟨p, t, u, h, h1⟩
      have ht : t = [] := by
        cases t with
        | nil => rfl
        | cons _ _ => cases p <;> simp at h
      subst ht; exact h1
  | c :: cs => by
    simp only [MatchString, Bool.or_eq_true, Re.prefixMatch_iff, MatchString_iff r cs]
    constructor
    · rintro (⟨t, u, h, h1⟩ | ⟨p, t, u, rfl, h1⟩)
      · exact ⟨[], t, u, by simpa using h, h1⟩
      · exact ⟨c :: p, t, u, by simp, h1⟩
    · rintro ⟨p, t, u, h, h1⟩
      cases p with
      | nil => exact Or.inl ⟨t, u, by simpa using h, h1⟩
      | cons d p1 =>
        simp only [List.cons_append, List.cons.injEq] at h
        obtain ⟨rfl, rfl⟩ := h
        exact Or.inr ⟨p1, t, u, rfl, h1⟩

theorem matches_lit_iff : ∀ (l s : List Char), Re.Matches (Re.lit l) s ↔ s = l
  | [], s => by simp only [Re.lit, Re.matches_eps_iff]
  | c :: cs, s => by
    simp only [Re.lit, Re.matches_cat_iff, Re.matches_cls_iff, matches_lit_iff cs]
    constructor
    · rintro ⟨t, u, rfl, ⟨d, rfl, hd⟩, rfl⟩
      simp at hd
      simp [hd]
    · rintro rfl
      exact ⟨[c], cs, rfl, ⟨c, rfl, by simp⟩, rfl⟩

theorem matches_star_cls_iff (p : Char → Bool) : ∀ (s : List Char),
    Re.Matches (Re.star (Re.cls p)) s ↔ ∀ c ∈ s, p c = true
  | [] => by simp; exact Re.Matches.starNil
  | c :: cs => by
    rw [Re.matches_star_cons_iff]
    constructor
    · rintro ⟨t, u, rfl, h1, h2⟩
      rw [Re.matches_cls_iff] at h1
      obtain ⟨d, hd, hp⟩ := h1
      simp only [List.cons.injEq] at hd
      obtain ⟨rfl, rfl⟩ := hd
      have ih := (matches_star_cls_iff p u).1 h2
      intro x hx
      simp only [List.nil_append, List.mem_cons] at hx
      rcases hx with rfl | hx
      · exact hp
      · exact ih x hx
    · intro h
      refine ⟨[], cs, rfl, (Re.matches_cls_iff p _).2 ⟨c, rfl, h c (List.mem_cons_self _ _)⟩, ?_⟩
      exact (matches_star_cls_iff p cs).2 (fun x hx => h x (List.mem_cons_of_mem _ hx))

theorem matches_plus_cls_iff (p : Char → Bool) (s : List Char) :
    Re.Matches (Re.plus (Re.cls p)) s ↔ s ≠ [] ∧ ∀ c ∈ s, p c = true := by
  simp only [Re.plus, Re.matches_cat_iff, Re.matches_cls_iff, matches_star_cls_iff]
  constructor
  · rintro ⟨t, u, rfl, ⟨d, rfl, hd⟩, hu⟩
    refine ⟨by simp, ?_⟩
    intro x hx
    simp only [List.singleton_append, List.mem_cons] at hx
    rcases hx with rfl | hx
    · exact hd
    · exact hu x hx
  · rintro ⟨hne, h⟩
    cases s with
    | nil => exact absurd rfl hne
    | cons c cs =>
      exact ⟨[c], cs, rfl, ⟨c, rfl, h c (List.mem_cons_self _ _)⟩,
        fun x hx => h x (List.mem_cons_of_mem _ hx)⟩

/-- The texts accepted by the body of the pattern of `getFileName`. -/
theorem matches_fileNameRe_iff (t : List Char) :
    Re.Matches fileNameRe t ↔
      ∃ (name : List Char) (d : Char), t = '/' :: (name ++ d :: "sql".data) ∧ name ≠ [] ∧
        (∀ c ∈ name, isIdentChar c = true) ∧ isDot d = true := by
  simp only [fileNameRe, Re.matches_cat_iff, Re.matches_cls_iff, matches_plus_cls_iff,
    matches_lit_iff]
  constructor
  · rintro ⟨t1, u1, rfl, ⟨c, rfl, hc⟩, t2, u2, rfl, ⟨hne, hall⟩, t3, u3, rfl, ⟨d, rfl, hd⟩, rfl⟩
    simp only [isSlashClass, beq_iff_eq] at hc
    subst hc
    exact ⟨t2, d, by simp, hne, hall, hd⟩
  · rintro ⟨name, d, rfl, hne, hall, hd⟩
    exact ⟨['/'], _, rfl, ⟨'/', rfl, by decide⟩, name, _, rfl, ⟨hne, hall⟩, [d], _, rfl,
      ⟨d, rfl, hd⟩, rfl⟩

/-- The texts accepted by a pattern `<lead>\w+<trail>`. -/
theorem matches_quoted_iff (lead trail t : List Char) :
    Re.Matches (Re.cat (Re.lit lead) (Re.cat (Re.plus (Re.cls isWordChar)) (Re.lit trail))) t ↔
      ∃ name : List Char, t = lead ++ name ++ trail ∧ name ≠ [] ∧
        ∀ c ∈ name, isWordChar c = true := by
  simp only [Re.matches_cat_iff, matches_plus_cls_iff, matches_lit_iff]
  constructor
  · rintro ⟨t1, u1, rfl, rfl, t2, u2, rfl, ⟨hne, hall⟩, rfl⟩
    exact ⟨t2, by simp, hne, hall⟩
  · rintro ⟨name, rfl, hne, hall⟩
    exact ⟨lead, _, by simp, rfl, name, trail, rfl, ⟨hne, hall⟩, rfl⟩

theorem FindAllString_cons (body : Re) (c : Char) (cs : List Char) :
    FindAllString body (c :: cs) =
      if body.fullMatch (c :: cs) then [c :: cs] else FindAllString body cs := rfl

theorem FindAllString_append (body : Re) (t : List Char) (ht : body.fullMatch t = true)
    (hne : t ≠ []) :
    ∀ p : List Char, (∀ p1 p2, p = p1 ++ p2 → p2 ≠ [] → body.fullMatch (p2 ++ t) = false) →
      FindAllString body (p ++ t) = [t]
  | [], _ => by
    cases t with
    | nil => exact absurd rfl hne
    | cons c cs => simp only [List.nil_append, FindAllString, ht, if_true]
  | c :: cs, h => by
    have h1 : body.fullMatch (c :: (cs ++ t)) = false := h [] (c :: cs) rfl (by simp)
    have ih := FindAllString_append body t ht hne cs
      (fun p1 p2 hp hp2 => h (c :: p1) p2 (by simp [hp]) hp2)
    rw [List.cons_append, FindAllString_cons, h1]
    simpa using ih

theorem isIdentChar_not_cut (c : Char) (h : isIdentChar c = true) :
    c ≠ '\\' ∧ c ≠ '/' := by
  constructor
  · rintro rfl; exact absurd h (by decide)
  · rintro rfl; exact absurd h (by decide)

/-- C3 (amended). For every path `<dir>/<identifier>.sql` whose identifier is a
non-empty text over `[A-Za-z0-9_-]`, `getFileName` returns `<identifier>.sql`:
the base file name without the directory and with its extension. -/
theorem getFileName_sql (dir ident : String) (hne : ident.data ≠ [])
    (hid : ∀ c ∈ ident.data, isIdentChar c = true) :
    getFileName (dir ++ "/" ++ ident ++ ".sql") = ident ++ ".sql" := by
  have hm : fileNameRe.fullMatch ('/' :: (ident.data ++ '.' :: "sql".data)) = true :=
    (Re.fullMatch_iff _ _).2
      ((matches_fileNameRe_iff _).2 ⟨ident.data, '.', rfl, hne, hid, by decide⟩)
  have hdata : (dir ++ "/" ++ ident ++ ".sql").data =
      dir.data ++ '/' :: (ident.data ++ '.' :: "sql".data) := by
    simp [String.data_append]
  have hfind : FindAllString fileNameRe (dir ++ "/" ++ ident ++ ".sql").data =
      ['/' :: (ident.data ++ '.' :: "sql".data)] := by
    rw [hdata]
    apply FindAllString_append fileNameRe _ hm (by simp)
    intro p1 p2 _ hp2
    by_contra hcon
    rw [Bool.not_eq_false, Re.fullMatch_iff, matches_fileNameRe_iff] at hcon
    obtain ⟨name, d, heq, _, hall, _⟩ := hcon
    cases p2 with
    | nil => exact hp2 rfl
    | cons x xs =>
      have heq2 : (xs ++ '/' :: ident.data) ++ ['.', 's', 'q', 'l'] = name ++ [d, 's', 'q', 'l'] := by
        simp only [List.cons_append, List.cons.injEq] at heq
        simpa using heq.2
      have h3 := (List.append_inj' heq2 rfl).1
      have : isIdentChar '/' = true := hall '/' (by rw [← h3]; simp)
      exact absurd this (by decide)
  unfold getFileName
  simp only [hfind]
  cases hd : ident.data with
  | nil => exact absurd hd hne
  | cons c cs =>
    have hc : isIdentChar c = true := hid c (by rw [hd]; simp)
    have hcut := isIdentChar_not_cut c hc
    apply String.ext
    simp only [TrimLeft, String.data_append, hd]
    simp [List.dropWhile, hcut.1, hcut.2]

/-! ## The loop of `Migrate` -/

theorem migrateLoop_log (env : Env) : ∀ (files : List String) (n : Nat) (st : Run),
    (∀ e ∈ (migrateLoop env files n st).2.2, e.isCommit = false) ∧
    (∀ m, (migrateLoop env files n st).1 = Except.ok m →
      (∀ e ∈ (migrateLoop env files n st).2.2, e.isFailure = false) ∧
        m = n + ((migrateLoop env files n st).2.2.countP Event.isApplied)) ∧
    (∀ msg, (migrateLoop env files n st).1 = Except.error msg →
      ∃ e ∈ (migrateLoop env files n st).2.2, e.isFailure = true)
  | [], n, st => by simp [migrateLoop]
  | fn :: rest, n, st => by
    have ih1 := migrateLoop_log env rest n st
    have ih2 := fun st1 => migrateLoop_log env rest (n + 1) st1
    simp only [migrateLoop]
    split
    · simp [Event.isCommit, Event.isFailure]
    · split
      · simp [Event.isCommit, Event.isFailure]
      · split
        · obtain ⟨h1, h2, h3⟩ := ih1
          refine ⟨?_, ?_, ?_⟩
          · intro e he
            simp only [List.cons_append, List.nil_append, List.mem_cons] at he
            rcases he with rfl | rfl | he
            · rfl
            · rfl
            · exact h1 e he
          · intro m hm
            obtain ⟨h4, h5⟩ := h2 m hm
            refine ⟨?_, ?_⟩
            · intro e he
              simp only [List.cons_append, List.nil_append, List.mem_cons] at he
              rcases he with rfl | rfl | he
              · rfl
              · rfl
              · exact h4 e he
            · simp [List.countP_cons, Event.isApplied, h5]
          · intro msg hm
            obtain ⟨e, he, hf⟩ := h3 msg hm
            exact ⟨e, by simp [he], hf⟩
        · split
          · simp [Event.isCommit, Event.isFailure]
          · split
            · simp [Event.isCommit, Event.isFailure]
            · obtain ⟨h1, h2, h3⟩ := ih2 _
              refine ⟨?_, ?_, ?_⟩
              · intro e he
                simp only [List.cons_append, List.nil_append, List.mem_cons] at he
                rcases he with rfl | rfl | rfl | rfl | he
                · rfl
                · rfl
                · rfl
                · rfl
                · exact h1 e he
              · intro m hm
                obtain ⟨h4, h5⟩ := h2 m hm
                refine ⟨?_, ?_⟩
                · intro e he
                  simp only [List.cons_append, List.nil_append, List.mem_cons] at he
                  rcases he with rfl | rfl | rfl | rfl | he
                  · rfl
                  · rfl
                  · rfl
                  · rfl
                  · exact h4 e he
                · simp only [List.cons_append, List.nil_append, List.countP_cons, Event.isApplied]
                  simp only [h5]
                  simp
                  omega
              · intro msg hm
                obtain ⟨e, he, hf⟩ := h3 msg hm
                exact ⟨e, by simp [he], hf⟩

theorem CreateMigrationTable_rows (env : Env) (w : DBState) :
    (PostgresDBUtils.CreateMigrationTable env w).2.1.rows = w.rows ∧
      (PostgresDBUtils.CreateMigrationTable env w).2.1.executed = w.executed := by
  unfold PostgresDBUtils.CreateMigrationTable
  split
  · exact ⟨rfl, rfl⟩
  · split
    · split
      · split <;> exact ⟨rfl, rfl⟩
      · exact ⟨rfl, rfl⟩
    · exact ⟨rfl, rfl⟩

/-- C2. Atomicity of `DB.Migrate`: in every run a commit of the migration
transaction is issued exactly when no step failed and at least one migration was
newly applied; and when a step failed (listing, begin, table check, file read,
record lookup, statement execution or record insert) `Migrate` returns an error,
no commit is issued and the committed bookkeeping rows and migration effects are
those from before the run. -/
theorem Migrate_atomic (env : Env) (db : DB) (w : DBState) :
    ((∃ e ∈ (DB.Migrate env db w).2.2, e.isCommit = true) ↔
      ((∀ e ∈ (DB.Migrate env db w).2.2, e.isFailure = false) ∧
        0 < (DB.Migrate env db w).2.2.countP Event.isApplied)) ∧
    ((∃ e ∈ (DB.Migrate env db w).2.2, e.isFailure = true) →
      (DB.Migrate env db w).1 ≠ none ∧
        (∀ e ∈ (DB.Migrate env db w).2.2, e.isCommit = false) ∧
        (DB.Migrate env db w).2.1.rows = w.rows ∧
        (DB.Migrate env db w).2.1.executed = w.executed) := by
  have hrows := CreateMigrationTable_rows env w
  unfold DB.Migrate
  cases hfiles : env.files with
  | error e => simp [Event.isCommit, Event.isFailure]
  | ok files =>
    cases hb : env.beginErr with
    | some e => simp [Event.isCommit, Event.isFailure]
    | none =>
      rcases hc : PostgresDBUtils.CreateMigrationTable env w with ⟨_ | err, w1, log1⟩
      · rw [hc] at hrows
        dsimp only
        have hlog := migrateLoop_log env files 0
          { tx := { rows := w.rows, executed := w.executed }, nextID := w1.nextID }
        rcases hl : migrateLoop env files 0
          { tx := { rows := w.rows, executed := w.executed }, nextID := w1.nextID }
          with ⟨msg | m, st, evs⟩
        · simp only [hl]
          rw [hl] at hlog
          obtain ⟨h1, -, h3⟩ := hlog
          obtain ⟨e, he, hf⟩ := h3 msg rfl
          dsimp only at he hf h1 ⊢
          refine ⟨?_, ?_⟩
          · constructor
            · rintro ⟨x, hx, hc⟩
              simp only [List.cons_append, List.nil_append, List.mem_cons, List.mem_append,
                List.mem_singleton, List.not_mem_nil, or_false] at hx
              rcases hx with rfl | rfl | rfl | hx | rfl
              · cases hc
              · cases hc
              · cases hc
              · rw [h1 x hx] at hc; cases hc
              · cases hc
            · rintro ⟨hall, -⟩
              have := hall e (by simp [he])
              rw [hf] at this; cases this
          · intro _
            refine ⟨by simp, ?_, hrows.1, hrows.2⟩
            intro x hx
            simp only [List.cons_append, List.nil_append, List.mem_cons, List.mem_append,
              List.mem_singleton, List.not_mem_nil, or_false] at hx
            rcases hx with rfl | rfl | rfl | hx | rfl
            · rfl
            · rfl
            · rfl
            · exact h1 x hx
            · rfl
        · simp only [hl]
          rw [hl] at hlog
          obtain ⟨h1, h2, -⟩ := hlog
          obtain ⟨h4, h5⟩ := h2 m rfl
          dsimp only at h1 h4 h5 ⊢
          simp only [Nat.zero_add] at h5
          have hnf : ∀ (tl : List Event), (∀ x ∈ tl, x.isFailure = false) →
              ∀ x ∈ [Event.readDir none, Event.begin none, Event.tableCheck none] ++ evs ++ tl,
                x.isFailure = false := by
            intro tl htl x hx
            simp only [List.cons_append, List.nil_append, List.mem_cons, List.mem_append] at hx
            rcases hx with rfl | rfl | rfl | hx | hx
            · rfl
            · rfl
            · rfl
            · exact h4 x hx
            · exact htl x hx
          have hcnt : ∀ (tl : List Event), tl.countP Event.isApplied = 0 →
              ([Event.readDir none, Event.begin none, Event.tableCheck none] ++ evs ++
                tl).countP Event.isApplied = m := by
            intro tl htl
            simp [List.countP_append, List.countP_cons, Event.isApplied, htl, h5]
          have hcommit : ∀ (o : Option String),
              ∃ x ∈ [Event.readDir none, Event.begin none, Event.tableCheck none] ++ evs ++
                [Event.commit o, Event.rollback], x.isCommit = true :=
            fun o => ⟨Event.commit o, by simp, rfl⟩
          by_cases hpos : m > 0
          · simp only [hpos, if_true]
            cases hce : env.commitErr with
            | some e =>
              dsimp only
              rw [hcnt _ (by simp [List.countP_cons, Event.isApplied])]
              refine ⟨⟨fun _ => ⟨hnf _ (by simp [Event.isFailure]), hpos⟩, fun _ => hcommit _⟩, ?_⟩
              rintro ⟨x, hx, hxf⟩
              rw [hnf _ (by simp [Event.isFailure]) x hx] at hxf
              cases hxf
            | none =>
              dsimp only
              rw [hcnt _ (by simp [List.countP_cons, Event.isApplied])]
              refine ⟨⟨fun _ => ⟨hnf _ (by simp [Event.isFailure]), hpos⟩, fun _ => hcommit _⟩, ?_⟩
              rintro ⟨x, hx, hxf⟩
              rw [hnf _ (by simp [Event.isFailure]) x hx] at hxf
              cases hxf
          · simp only [hpos, if_false]
            rw [hcnt _ (by simp [List.countP_cons, Event.isApplied])]
            refine ⟨?_, ?_⟩
            · constructor
              · rintro ⟨x, hx, hc⟩
                simp only [List.cons_append, List.nil_append, List.mem_cons, List.mem_append,
                  List.mem_singleton, List.not_mem_nil, or_false] at hx
                rcases hx with rfl | rfl | rfl | hx | rfl
                · cases hc
                · cases hc
                · cases hc
                · rw [h1 x hx] at hc; cases hc
                · cases hc
              · rintro ⟨-, hm⟩
                exact absurd hm hpos
            · rintro ⟨x, hx, hxf⟩
              rw [hnf _ (by simp [Event.isFailure]) x hx] at hxf
              cases hxf
      · rw [hc] at hrows
        simp [Event.isCommit, Event.isFailure]
        exact hrows

/-! ## Idempotence -/

theorem least_foldl (l : List Row) : ∀ (init : Option Row) (r : Row),
    l.foldl (fun best r =>
      match best with
      | none => some r
      | some b => if r.ID < b.ID then some r else some b) init = some r →
    r ∈ l ∨ init = some r := by
  induction l with
  | nil => intro init r h; exact Or.inr h
  | cons a l ih =>
    intro init r h
    simp only [List.foldl_cons] at h
    rcases ih _ r h with h1 | h1
    · exact Or.inl (List.mem_cons_of_mem _ h1)
    · cases init with
      | none =>
        simp only [Option.some.injEq] at h1
        subst h1; exact Or.inl (List.mem_cons_self _ _)
      | some b =>
        dsimp only at h1
        split at h1
        · simp only [Option.some.injEq] at h1
          subst h1; exact Or.inl (List.mem_cons_self _ _)
        · exact Or.inr h1

theorem least_foldl_isSome (l : List Row) : ∀ (init : Option Row),
    (init ≠ none ∨ l ≠ []) →
    l.foldl (fun best r =>
      match best with
      | none => some r
      | some b => if r.ID < b.ID then some r else some b) init ≠ none := by
  induction l with
  | nil => intro init h; rcases h with h | h; exact h; exact absurd rfl h
  | cons a l ih =>
    intro init _
    simp only [List.foldl_cons]
    apply ih
    left
    cases init with
    | none => simp
    | some b => dsimp only; split <;> simp

theorem First_mem {rows : List Row} {name : String} {r : Row}
    (h : Tx.First rows name = some r) : r ∈ rows ∧ r.MigrationName = some name := by
  unfold Tx.First at h
  rcases least_foldl _ none r h with h1 | h1
  · simp only [List.mem_filter, beq_iff_eq] at h1
    exact h1
  · cases h1

theorem First_of_mem {rows : List Row} {name : String} {r : Row} (hr : r ∈ rows)
    (hn : r.MigrationName = some name) : ∃ r1, Tx.First rows name = some r1 := by
  have hne : rows.filter (fun r => r.MigrationName == some name) ≠ [] := by
    intro h
    have : r ∈ rows.filter (fun r => r.MigrationName == some name) := by
      simp [List.mem_filter, hr, hn]
    rw [h] at this
    cases this
  have := least_foldl_isSome _ none (Or.inr hne)
  unfold Tx.First
  exact Option.ne_none_iff_exists'.1 this

theorem HasRun_toRecord (r : Row) : r.toRecord.HasRun = true ↔ r.Date ≠ none := by
  simp [migrationVersion.HasRun, Row.toRecord]

theorem HasRun_empty : ({} : migrationVersion).HasRun = false := rfl

/-- A file whose name is stored in dated rows is skipped by the loop. -/
theorem lookup_HasRun {rows : List Row} {fn : String} (hd : Dated rows)
    (hc : ∃ r ∈ rows, r.MigrationName = some (getFileName fn)) :
    ∃ r, Tx.First rows (getFileName fn) = some r ∧ r.toRecord.HasRun = true := by
  obtain ⟨r, hr, hn⟩ := hc
  obtain ⟨r1, h1⟩ := First_of_mem hr hn
  exact ⟨r1, h1, (HasRun_toRecord r1).2 (hd r1 (First_mem h1).1)⟩

theorem migrateLoop_ok (env : Env) : ∀ (files : List String) (n : Nat) (st : Run) (m : Nat),
    (migrateLoop env files n st).1 = Except.ok m → Dated st.tx.rows →
    Dated (migrateLoop env files n st).2.1.tx.rows ∧
    Covered (migrateLoop env files n st).2.1.tx.rows files ∧
    (∃ extra, (migrateLoop env files n st).2.1.tx.rows = st.tx.rows ++ extra) ∧
    n ≤ m ∧
    (m = n → (migrateLoop env files n st).2.1.tx = st.tx) ∧
    (∀ fn ∈ files, (∃ b, env.readFile fn = Except.ok b) ∧ env.firstErr fn = none)
  | [], n, st, m => by
    intro h hd
    simp only [migrateLoop, Except.ok.injEq] at h
    simp only [migrateLoop]
    exact ⟨hd, by simp [Covered], ⟨[], by simp⟩, by omega, by simp, by simp⟩
  | fn :: rest, n, st, m => by
    intro h hd
    simp only [migrateLoop] at h ⊢
    cases hrd : env.readFile fn with
    | error e => simp [hrd] at h
    | ok b =>
      simp only [hrd] at h ⊢
      cases hfe : env.firstErr fn with
      | some e => simp [hfe] at h
      | none =>
        simp only [hfe] at h ⊢
        split at h
        · rename_i hrun
          simp only [hrun, if_true]
          obtain ⟨h1, h2, h3, h4, h5, h6⟩ := migrateLoop_ok env rest n st m h hd
          refine ⟨h1, ?_, h3, h4, h5, ?_⟩
          · intro f hf
            simp only [List.mem_cons] at hf
            rcases hf with rfl | hf
            · have hsome : ∃ r, Tx.First st.tx.rows (getFileName f) = some r := by
                cases hF : Tx.First st.tx.rows (getFileName f) with
                | none => rw [hF] at hrun; simp [HasRun_empty] at hrun
                | some r => exact ⟨r, rfl⟩
              obtain ⟨r, hr⟩ := hsome
              obtain ⟨extra, hex⟩ := h3
              refine ⟨r, ?_, (First_mem hr).2⟩
              rw [hex]
              exact List.mem_append_left _ (First_mem hr).1
            · exact h2 f hf
          · intro f hf
            simp only [List.mem_cons] at hf
            rcases hf with rfl | hf
            · exact ⟨⟨b, hrd⟩, hfe⟩
            · exact h6 f hf
        · rename_i hrun
          simp only [hrun, if_false, Bool.false_eq_true]
          cases hex : env.execErr fn with
          | some e => simp [hex] at h
          | none =>
            simp only [hex] at h ⊢
            cases hcr : env.createErr fn with
            | some e => simp [hcr] at h
            | none =>
              simp only [hcr] at h ⊢
              have hd2 : Dated (st.tx.rows ++
                  [Tx.Create st.nextID (NewMigrationVersion env.now fn b)]) := by
                intro r hr
                simp only [List.mem_append, List.mem_singleton] at hr
                rcases hr with hr | rfl
                · exact hd r hr
                · simp [Tx.Create, NewMigrationVersion]
              obtain ⟨h1, h2, h3, h4, h5, h6⟩ := migrateLoop_ok env rest (n + 1)
                { tx :=
                    { rows := st.tx.rows ++
                        [Tx.Create st.nextID (NewMigrationVersion env.now fn b)]
                      executed := st.tx.executed ++ [b] }
                  nextID := st.nextID + 1 } m h hd2
              obtain ⟨extra, hext⟩ := h3
              refine ⟨h1, ?_, ⟨Tx.Create st.nextID (NewMigrationVersion env.now fn b) :: extra,
                by rw [hext]; simp⟩, by omega, fun hm => by omega, ?_⟩
              · intro f hf
                simp only [List.mem_cons] at hf
                rcases hf with rfl | hf
                · refine ⟨Tx.Create st.nextID (NewMigrationVersion env.now f b), ?_, ?_⟩
                  · rw [hext]; simp
                  · simp [Tx.Create, NewMigrationVersion]
                · exact h2 f hf
              · intro f hf
                simp only [List.mem_cons] at hf
                rcases hf with rfl | hf
                · exact ⟨⟨b, hrd⟩, hfe⟩
                · exact h6 f hf

theorem migrateLoop_skip (env : Env) : ∀ (files : List String) (n : Nat) (st : Run),
    Dated st.tx.rows → Covered st.tx.rows files →
    (migrateLoop env files n st).2.1 = st ∧
    (∀ e ∈ (migrateLoop env files n st).2.2, e.isWrite = false) ∧
    (∀ m, (migrateLoop env files n st).1 = Except.ok m → m = n) ∧
    ((∀ fn ∈ files, (∃ b, env.readFile fn = Except.ok b) ∧ env.firstErr fn = none) →
      (migrateLoop env files n st).1 = Except.ok n)
  | [], n, st => by
    intro _ _
    simp [migrateLoop]
  | fn :: rest, n, st => by
    intro hd hc
    obtain ⟨r, hr, hrun⟩ := lookup_HasRun hd (hc fn (List.mem_cons_self _ _))
    have hc2 : Covered st.tx.rows rest := fun f hf => hc f (List.mem_cons_of_mem _ hf)
    obtain ⟨h1, h2, h3, h4⟩ := migrateLoop_skip env rest n st hd hc2
    simp only [migrateLoop]
    cases hrd : env.readFile fn with
    | error e =>
      dsimp only
      refine ⟨rfl, ?_, (fun _ h => by cases h), ?_⟩
      · intro x hx
        simp only [List.mem_singleton] at hx
        subst hx; rfl
      · intro h
        obtain ⟨⟨b, hb⟩, _⟩ := h fn (List.mem_cons_self _ _)
        rw [hrd] at hb; cases hb
    | ok b =>
      dsimp only
      cases hfe : env.firstErr fn with
      | some e =>
        dsimp only
        refine ⟨rfl, ?_, (fun _ h => by cases h), ?_⟩
        · intro x hx
          simp only [List.mem_cons, List.mem_singleton, List.not_mem_nil, or_false] at hx
          rcases hx with rfl | rfl <;> rfl
        · intro h
          obtain ⟨_, hb⟩ := h fn (List.mem_cons_self _ _)
          rw [hfe] at hb; cases hb
      | none =>
        dsimp only
        simp only [hr, hrun, if_true]
        refine ⟨h1, ?_, h3, ?_⟩
        · intro x hx
          simp only [List.cons_append, List.nil_append, List.mem_cons] at hx
          rcases hx with rfl | rfl | hx
          · rfl
          · rfl
          · exact h2 x hx
        · intro h
          exact h4 (fun f hf => h f (List.mem_cons_of_mem _ hf))

theorem CreateMigrationTable_err (env : Env) (w w0 : DBState) :
    (PostgresDBUtils.CreateMigrationTable env w).1 =
      (PostgresDBUtils.CreateMigrationTable env w0).1 := by
  unfold PostgresDBUtils.CreateMigrationTable
  split
  · rfl
  · split
    · split
      · split <;> rfl
      · rfl
    · rfl

/-- What a successful run leaves behind and what it tells about the answers of
the environment. -/
theorem Migrate_ok_store (env : Env) (db : DB) (w : DBState) (files : List String)
    (hf : env.files = Except.ok files) (hd : Dated w.rows)
    (hok : (DB.Migrate env db w).1 = none) :
    Dated (DB.Migrate env db w).2.1.rows ∧ Covered (DB.Migrate env db w).2.1.rows files ∧
      env.beginErr = none ∧ (PostgresDBUtils.CreateMigrationTable env w).1 = none ∧
      (∀ fn ∈ files, (∃ b, env.readFile fn = Except.ok b) ∧ env.firstErr fn = none) := by
  have hrows := CreateMigrationTable_rows env w
  unfold DB.Migrate at hok ⊢
  simp only [hf] at hok ⊢
  cases hb : env.beginErr with
  | some e => simp [hb] at hok
  | none =>
    simp only [hb] at hok ⊢
    rcases hc : PostgresDBUtils.CreateMigrationTable env w with ⟨_ | err, w1, log1⟩
    · rw [hc] at hrows
      simp only [hc] at hok ⊢
      have hlp := migrateLoop_ok env files 0
        { tx := { rows := w.rows, executed := w.executed }, nextID := w1.nextID }
      rcases hl : migrateLoop env files 0
        { tx := { rows := w.rows, executed := w.executed }, nextID := w1.nextID }
        with ⟨msg | m, st, evs⟩
      · simp [hl] at hok
      · simp only [hl] at hok ⊢
        rw [hl] at hlp
        obtain ⟨h1, h2, -, -, h5, h6⟩ := hlp m rfl hd
        dsimp only at h1 h2 h5
        by_cases hpos : m > 0
        · simp only [hpos, if_true] at hok ⊢
          cases hce : env.commitErr with
          | some e => simp [hce] at hok
          | none => exact ⟨h1, h2, trivial, trivial, h6⟩
        · simp only [hpos, if_false]
          have hm : m = 0 := by omega
          have htx := h5 hm
          have hr : st.tx.rows = w.rows := by rw [htx]
          rw [hr] at h1 h2
          refine ⟨?_, ?_, trivial, trivial, h6⟩
          · dsimp only; rw [hrows.1]; exact h1
          · dsimp only; rw [hrows.1]; exact h2
    · simp [hc] at hok

/-- A run over files that all have a dated row writes nothing. -/
theorem Migrate_skip (env : Env) (db : DB) (w : DBState) (files : List String)
    (hf : env.files = Except.ok files) (hd : Dated w.rows) (hcov : Covered w.rows files) :
    (∀ e ∈ (DB.Migrate env db w).2.2, e.isWrite = false) ∧
      (DB.Migrate env db w).2.1.rows = w.rows ∧
      (DB.Migrate env db w).2.1.executed = w.executed ∧
      (env.beginErr = none → (PostgresDBUtils.CreateMigrationTable env w).1 = none →
        (∀ fn ∈ files, (∃ b, env.readFile fn = Except.ok b) ∧ env.firstErr fn = none) →
        (DB.Migrate env db w).1 = none) := by
  have hrows := CreateMigrationTable_rows env w
  unfold DB.Migrate
  simp only [hf]
  cases hb : env.beginErr with
  | some e => simp [Event.isWrite]
  | none =>
    dsimp only
    rcases hc : PostgresDBUtils.CreateMigrationTable env w with ⟨_ | err, w1, log1⟩
    · rw [hc] at hrows
      dsimp only
      have hlp := migrateLoop_skip env files 0
        { tx := { rows := w.rows, executed := w.executed }, nextID := w1.nextID } hd hcov
      rcases hl : migrateLoop env files 0
        { tx := { rows := w.rows, executed := w.executed }, nextID := w1.nextID }
        with ⟨msg | m, st, evs⟩
      · rw [hl] at hlp
        obtain ⟨-, h2, -, h4⟩ := hlp
        dsimp only at h2 h4 ⊢
        refine ⟨?_, hrows.1, hrows.2, ?_⟩
        · intro x hx
          simp only [List.cons_append, List.nil_append, List.mem_cons, List.mem_append,
            List.mem_singleton, List.not_mem_nil, or_false] at hx
          rcases hx with rfl | rfl | rfl | hx | rfl
          · rfl
          · rfl
          · rfl
          · exact h2 x hx
          · rfl
        · intro _ _ hall
          have := h4 hall
          cases this
      · rw [hl] at hlp
        obtain ⟨-, h2, h3, -⟩ := hlp
        have hm : m = 0 := h3 m rfl
        subst hm
        dsimp only at h2 ⊢
        simp only [gt_iff_lt, Nat.lt_irrefl, if_false]
        refine ⟨?_, hrows.1, hrows.2, fun _ _ _ => trivial⟩
        intro x hx
        simp only [List.cons_append, List.nil_append, List.mem_cons, List.mem_append,
          List.mem_singleton, List.not_mem_nil, or_false] at hx
        rcases hx with rfl | rfl | rfl | hx | rfl
        · rfl
        · rfl
        · rfl
        · exact h2 x hx
        · rfl
    · rw [hc] at hrows
      dsimp only
      refine ⟨?_, hrows.1, hrows.2, ?_⟩
      · intro x hx
        simp only [List.mem_cons, List.mem_singleton, List.not_mem_nil, or_false] at hx
        rcases hx with rfl | rfl | rfl | rfl <;> rfl
      · intro _ h
        cases h

/-- C1 (amended). Idempotence of `DB.Migrate` on a bookkeeping table whose rows
all carry a timestamp: if a first run over a list of files succeeds, a second run
over the same files against the resulting table issues no statement execution,
no record insert and no commit, whatever the environment answers, and leaves the
committed rows and effects as they are; each file finds under its derived name a
record that satisfies `HasRun`; and under the answers of the first run the
second run returns `nil`. -/
theorem Migrate_idempotent (env1 env2 : Env) (db : DB) (w : DBState) (files : List String)
    (hf1 : env1.files = Except.ok files) (hf2 : env2.files = Except.ok files)
    (hd : Dated w.rows) (hok : (DB.Migrate env1 db w).1 = none) :
    (∀ e ∈ (DB.Migrate env2 db (DB.Migrate env1 db w).2.1).2.2, e.isWrite = false) ∧
      (DB.Migrate env2 db (DB.Migrate env1 db w).2.1).2.1.rows = (DB.Migrate env1 db w).2.1.rows ∧
      (DB.Migrate env2 db (DB.Migrate env1 db w).2.1).2.1.executed =
        (DB.Migrate env1 db w).2.1.executed ∧
      (∀ fn ∈ files, ∃ r, Tx.First (DB.Migrate env1 db w).2.1.rows (getFileName fn) = some r ∧
        r.toRecord.HasRun = true) ∧
      (DB.Migrate env1 db (DB.Migrate env1 db w).2.1).1 = none := by
  obtain ⟨h1, h2, h3, h4, h5⟩ := Migrate_ok_store env1 db w files hf1 hd hok
  obtain ⟨k1, k2, k3, -⟩ := Migrate_skip env2 db _ files hf2 h1 h2
  obtain ⟨-, -, -, k4⟩ := Migrate_skip env1 db _ files hf1 h1 h2
  refine ⟨k1, k2, k3, fun fn hfn => lookup_HasRun h1 (h2 fn hfn), k4 h3 ?_ h5⟩
  rw [CreateMigrationTable_err env1 _ w]
  exact h4

/-! ## Naming the failing file -/

theorem contains_mid (a fn b : String) : Contains (a ++ fn ++ b) fn :=
  ⟨a.data, b.data, by simp [String.data_append]⟩

theorem migrateLoop_names (env : Env) (fn : String) :
    ∀ (files : List String) (n : Nat) (st : Run),
    ((∃ e, Event.read fn (some e) ∈ (migrateLoop env files n st).2.2) ∨
      (∃ sql e, Event.exec fn sql (some e) ∈ (migrateLoop env files n st).2.2)) →
    ∃ msg, (migrateLoop env files n st).1 = Except.error msg ∧ Contains msg fn
  | [], n, st => by
    simp [migrateLoop]
  | f :: rest, n, st => by
    have ih1 := migrateLoop_names env fn rest n st
    have ih2 := fun st1 => migrateLoop_names env fn rest (n + 1) st1
    simp only [migrateLoop]
    cases hrd : env.readFile f with
    | error e =>
      dsimp only
      intro h
      have hfn : f = fn := by
        rcases h with ⟨e1, h⟩ | ⟨sql, e1, h⟩
        · simp only [List.mem_singleton, Event.read.injEq] at h
          exact h.1.symm
        · simp at h
      subst hfn
      refine ⟨_, rfl, ?_⟩
      have := contains_mid ("Could not read query file: " ++ e.Op ++ " ") f (": " ++ e.Err)
      simpa [PathError.Error, String.append_assoc] using this
    | ok b =>
      dsimp only
      cases hfe : env.firstErr f with
      | some e =>
        dsimp only
        intro h
        rcases h with ⟨e1, h⟩ | ⟨sql, e1, h⟩ <;> simp at h
      | none =>
        dsimp only
        split
        · intro h
          apply ih1
          rcases h with ⟨e1, h⟩ | ⟨sql, e1, h⟩
          · left; exact ⟨e1, by simpa using h⟩
          · right; exact ⟨sql, e1, by simpa using h⟩
        · cases hex : env.execErr f with
          | some e =>
            dsimp only
            intro h
            have hfn : f = fn := by
              rcases h with ⟨e1, h⟩ | ⟨sql, e1, h⟩
              · simp at h
              · simp at h
                exact h.1.symm
            subst hfn
            refine ⟨_, rfl, ?_⟩
            have := contains_mid "Could not execute query in '" f ("': " ++ e)
            simpa [String.append_assoc] using this
          | none =>
            dsimp only
            cases hcr : env.createErr f with
            | some e =>
              dsimp only
              intro h
              rcases h with ⟨e1, h⟩ | ⟨sql, e1, h⟩ <;> simp at h
            | none =>
              dsimp only
              intro h
              apply ih2
              rcases h with ⟨e1, h⟩ | ⟨sql, e1, h⟩
              · left; exact ⟨e1, by simpa using h⟩
              · right; exact ⟨sql, e1, by simpa using h⟩

/-- When a run of `DB.Migrate` fails while reading a migration file `fn` or
while executing its SQL, the error message it returns contains the path `fn`. -/
theorem Migrate_error_names_file (env : Env) (db : DB) (w : DBState) (fn : String)
    (h : (∃ e, Event.read fn (some e) ∈ (DB.Migrate env db w).2.2) ∨
      (∃ sql e, Event.exec fn sql (some e) ∈ (DB.Migrate env db w).2.2)) :
    ∃ msg, (DB.Migrate env db w).1 = some msg ∧ Contains msg fn := by
  unfold DB.Migrate at h ⊢
  cases hfiles : env.files with
  | error e =>
    simp only [hfiles] at h
    rcases h with ⟨e1, h⟩ | ⟨sql, e1, h⟩ <;> simp at h
  | ok files =>
    simp only [hfiles] at h ⊢
    cases hb : env.beginErr with
    | some e =>
      simp only [hb] at h
      rcases h with ⟨e1, h⟩ | ⟨sql, e1, h⟩ <;> simp at h
    | none =>
      simp only [hb] at h ⊢
      rcases hc : PostgresDBUtils.CreateMigrationTable env w with ⟨_ | err, w1, log1⟩
      · simp only [hc] at h ⊢
        have hn := migrateLoop_names env fn files 0
          { tx := { rows := w.rows, executed := w.executed }, nextID := w1.nextID }
        rcases hl : migrateLoop env files 0
          { tx := { rows := w.rows, executed := w.executed }, nextID := w1.nextID }
          with ⟨msg | m, st, evs⟩
        · simp only [hl] at h hn ⊢
          have hin : (∃ e, Event.read fn (some e) ∈ evs) ∨
              (∃ sql e, Event.exec fn sql (some e) ∈ evs) := by
            rcases h with ⟨e1, h⟩ | ⟨sql, e1, h⟩
            · left; exact ⟨e1, by simpa using h⟩
            · right; exact ⟨sql, e1, by simpa using h⟩
          obtain ⟨msg1, h1, h2⟩ := hn hin
          simp only [Except.error.injEq] at h1
          subst h1
          exact ⟨msg, rfl, h2⟩
        · simp only [hl] at h hn ⊢
          have hin : (∃ e, Event.read fn (some e) ∈ evs) ∨
              (∃ sql e, Event.exec fn sql (some e) ∈ evs) := by
            by_cases hpos : m > 0
            · simp only [hpos, if_true] at h
              cases hce : env.commitErr with
              | some e0 =>
                simp only [hce] at h
                rcases h with ⟨e1, h⟩ | ⟨sql, e1, h⟩
                · left; exact ⟨e1, by simpa using h⟩
                · right; exact ⟨sql, e1, by simpa using h⟩
              | none =>
                simp only [hce] at h
                rcases h with ⟨e1, h⟩ | ⟨sql, e1, h⟩
                · left; exact ⟨e1, by simpa using h⟩
                · right; exact ⟨sql, e1, by simpa using h⟩
            · simp only [hpos, if_false] at h
              rcases h with ⟨e1, h⟩ | ⟨sql, e1, h⟩
              · left; exact ⟨e1, by simpa using h⟩
              · right; exact ⟨sql, e1, by simpa using h⟩
          obtain ⟨msg1, h1, _⟩ := hn hin
          cases h1
      · simp only [hc] at h
        rcases h with ⟨e1, h⟩ | ⟨sql, e1, h⟩ <;> simp at h

/-! ## Connection strings and error classification -/

/-- C4. The DSN is the concatenation, in the order dbname, host, port, user,
password, sslmode, of the segments `key=value `: a text field has its segment
exactly when it is not empty, the port exactly when it is not 0, and the
`sslmode` segment is always there, once, with the configured mode when that is
`require` or `allow` and `disable` otherwise. -/
theorem DSN_segments (db : DB) :
    PostgresDBUtils.DSN db =
      segment "dbname" db.Database (db.Database != "") ++
        (segment "host" db.Host (db.Host != "") ++
          (segment "port" (Itoa db.Port) (db.Port != 0) ++
            (segment "user" db.User (db.User != "") ++
              (segment "password" db.Password (db.Password != "") ++
                segment "sslmode" (sslValue db.SSLMode) true)))) := by
  unfold PostgresDBUtils.DSN segment sslValue
  by_cases h1 : db.Database = "" <;> by_cases h2 : db.Host = "" <;>
    by_cases h3 : db.Port = 0 <;> by_cases h4 : db.User = "" <;>
    by_cases h5 : db.Password = "" <;>
    by_cases h6 : (db.SSLMode = "require" ∨ db.SSLMode = "allow") <;>
    simp [h1, h2, h3, h4, h5, h6, String.append_assoc, Id.run]

/-- What the pattern of `IsDatabaseNotExistError` accepts: the messages that
contain `database "n" does not exist` for a non-empty name `n` made of letters,
digits and underscores only; a plain syntax error is not among them. -/
theorem IsDatabaseNotExistError_iff (msg : String) :
    (PostgresDBUtils.IsDatabaseNotExistError msg = true ↔
      ∃ pre n post : String,
        msg = pre ++ ("database \"" ++ n ++ "\" does not exist") ++ post ∧ n ≠ "" ∧
          ∀ c ∈ n.data, isWordChar c = true) ∧
      PostgresDBUtils.IsDatabaseNotExistError "pq: syntax error at or near \"SELEC\"" = false := by
  refine ⟨?_, by decide⟩
  unfold PostgresDBUtils.IsDatabaseNotExistError databaseNotExistRe
  rw [MatchString_iff]
  constructor
  · rintro ⟨p, t, u, h, hm⟩
    rw [matches_quoted_iff] at hm
    obtain ⟨name, rfl, hne, hall⟩ := hm
    refine ⟨String.mk p, String.mk name, String.mk u, ?_, ?_, hall⟩
    · apply String.ext
      simp [String.data_append, h]
    · intro hcon
      apply hne
      have := congrArg String.data hcon
      simpa using this
  · rintro ⟨pre, n, post, rfl, hne, hall⟩
    refine ⟨pre.data, ("database \"" ++ n ++ "\" does not exist").data, post.data, ?_, ?_⟩
    · simp [String.data_append]
    · rw [matches_quoted_iff]
      refine ⟨n.data, by simp [String.data_append], ?_, hall⟩
      intro hcon
      apply hne
      apply String.ext
      simpa using hcon

/-! ## The claims at concrete inputs -/

set_option maxRecDepth 100000

/-- C1, as stated, fails. The bookkeeping table holds a row for `001_init.sql`
without a timestamp. The first run over the two files succeeds; the second run
over the same files finds that row again, executes the statement of the first
file a second time, inserts a record and commits. -/
theorem Migrate_reruns_undated_record :
    (DB.Migrate scenarioEnv shopConfig undatedStore).1 = none ∧
      Event.exec "/schema/001_init.sql" "CREATE TABLE t(id int)" none ∈
        (DB.Migrate scenarioEnv shopConfig
          (DB.Migrate scenarioEnv shopConfig undatedStore).2.1).2.2 ∧
      Event.create "/schema/001_init.sql" none ∈
        (DB.Migrate scenarioEnv shopConfig
          (DB.Migrate scenarioEnv shopConfig undatedStore).2.1).2.2 ∧
      Event.commit none ∈
        (DB.Migrate scenarioEnv shopConfig
          (DB.Migrate scenarioEnv shopConfig undatedStore).2.1).2.2 := by
  decide

/-- C1 (amended) on the two-file folder and an empty bookkeeping table. -/
theorem Migrate_idempotent_witness :
    scenarioEnv.files = Except.ok twoFiles ∧ Dated ({} : DBState).rows ∧
      (DB.Migrate scenarioEnv shopConfig {}).1 = none ∧
      ((∀ e ∈ (DB.Migrate beginFailsEnv shopConfig
            (DB.Migrate scenarioEnv shopConfig {}).2.1).2.2, e.isWrite = false) ∧
        (DB.Migrate beginFailsEnv shopConfig
            (DB.Migrate scenarioEnv shopConfig {}).2.1).2.1.rows =
          (DB.Migrate scenarioEnv shopConfig {}).2.1.rows ∧
        (DB.Migrate beginFailsEnv shopConfig
            (DB.Migrate scenarioEnv shopConfig {}).2.1).2.1.executed =
          (DB.Migrate scenarioEnv shopConfig {}).2.1.executed ∧
        (∀ fn ∈ twoFiles,
          ∃ r, Tx.First (DB.Migrate scenarioEnv shopConfig {}).2.1.rows (getFileName fn) = some r ∧
            r.toRecord.HasRun = true) ∧
        (DB.Migrate scenarioEnv shopConfig (DB.Migrate scenarioEnv shopConfig {}).2.1).1 = none) :=
  ⟨rfl, by simp [Dated], by decide,
    Migrate_idempotent scenarioEnv beginFailsEnv shopConfig {} twoFiles rfl rfl
      (by simp [Dated]) (by decide)⟩

/-- C2 on a run whose second file fails to execute: the step failed, so the run
returns an error, issues no commit and leaves the committed state as it was. -/
theorem Migrate_atomic_witness :
    (∃ e ∈ (DB.Migrate seedFailsEnv shopConfig {}).2.2, e.isFailure = true) ∧
      ((DB.Migrate seedFailsEnv shopConfig {}).1 ≠ none ∧
        (∀ e ∈ (DB.Migrate seedFailsEnv shopConfig {}).2.2, e.isCommit = false) ∧
        (DB.Migrate seedFailsEnv shopConfig {}).2.1.rows = ({} : DBState).rows ∧
        (DB.Migrate seedFailsEnv shopConfig {}).2.1.executed = ({} : DBState).executed) :=
  ⟨by decide, (Migrate_atomic seedFailsEnv shopConfig {}).2 (by decide)⟩

/-- C3, as stated, fails: for `/a/b/add_users.sql` the derived name is
`add_users.sql`, with the extension, and not `add_users`. -/
theorem getFileName_keeps_extension :
    getFileName "/a/b/add_users.sql" = "add_users.sql" ∧
      getFileName "/a/b/add_users.sql" ≠ "add_users" := by
  decide

/-- C3 (amended) on the path `/a/b/add_users.sql`. -/
theorem getFileName_sql_witness :
    "add_users".data ≠ [] ∧ (∀ c ∈ "add_users".data, isIdentChar c = true) ∧
      getFileName ("/a/b" ++ "/" ++ "add_users" ++ ".sql") = "add_users" ++ ".sql" :=
  ⟨by decide, by decide, getFileName_sql "/a/b" "add_users" (by decide) (by decide)⟩

/-- C5 at a failing input: the engine reports that the database `my-db` is
missing, and `IsDatabaseNotExistError` answers false, so that `CreateIfNotExists`
returns an error and does not create the database; the same message for the
name `shop` is classified as missing. -/
theorem IsDatabaseNotExistError_misses_quoted_name (errorf : String → String) :
    PostgresDBUtils.IsDatabaseNotExistError "pq: database \"my-db\" does not exist" = false ∧
      (PostgresDBUtils.CreateIfNotExists
          { probeOpenErr := some "pq: database \"my-db\" does not exist", errorf := errorf,
            run1 := scenarioEnv, run2 := scenarioEnv } myDbConfig).1 =
        some ("Database does not exist: " ++ "pq: database \"my-db\" does not exist") ∧
      PostgresDBUtils.IsDatabaseNotExistError "pq: database \"shop\" does not exist" = true ∧
      (PostgresDBUtils.CreateIfNotExists
          { probeOpenErr := some "pq: database \"shop\" does not exist", errorf := errorf,
            run1 := scenarioEnv, run2 := scenarioEnv } shopConfig).1 = none := by
  refine ⟨by decide, rfl, by decide, rfl⟩

/-- C6 at a failing input: the probing insert fails with an error that is not
classified as table-missing, and `CreateMigrationTable` returns `nil`, without
trying to create the table. -/
theorem CreateMigrationTable_swallows_other_errors :
    PostgresDBUtils.IsTableNotExistError "pq: permission denied for table migration_versions" =
        false ∧
      (PostgresDBUtils.CreateMigrationTable probeDeniedEnv {}).1 = none ∧
      (PostgresDBUtils.CreateMigrationTable probeDeniedEnv {}).2.2 =
        [Event.begin none,
          Event.probe (some "pq: permission denied for table migration_versions"),
          Event.rollback] := by
  decide

/-- C7 at a failing input: with `dbport=notanumber` as the only variable and the
mode `ReadPort`, `ReadFromOS` reports that it found something and overwrites the
configuration, while with `dbport` unset it reports nothing and leaves the
configuration alone; and in the mode `ReadAll` a `dbport` beyond the range of
`int` leaves the upper bound in `Port` where an unset `dbport` leaves 0. -/
theorem ReadFromOS_unparsable_port_differs :
    Atoi "notanumber" = (0, true) ∧
      DB.ReadFromOS badPortEnv ReadPort true shopConfig = (true, {}) ∧
      DB.ReadFromOS emptyEnv ReadPort true shopConfig = (false, shopConfig) ∧
      Atoi "99999999999999999999" = (9223372036854775807, true) ∧
      DB.ReadFromOS hugePortEnv ReadAll true shopConfig =
        (true, { Host := "db.internal", Port := 9223372036854775807 }) ∧
      DB.ReadFromOS hostOnlyEnv ReadAll true shopConfig = (true, { Host := "db.internal" }) := by
  decide

/-- C8 at a failing input: the path `/a/b/add_users_sql` does not end with
`.sql`, yet it is not returned unchanged. -/
theorem getFileName_unescaped_dot :
    getFileName "/a/b/add_users_sql" = "add_users_sql" ∧
      getFileName "/a/b/add_users_sql" ≠ "/a/b/add_users_sql" := by
  decide

/-- C9 at a failing input: when the record of `/schema/002_seed.sql` cannot be
inserted, and likewise when its record lookup fails, the message `Migrate`
returns contains neither the path of the file nor its derived name. -/
theorem Migrate_record_errors_omit_file :
    Event.create "/schema/002_seed.sql" (some "pq: could not serialize access") ∈
        (DB.Migrate insertFailsEnv shopConfig {}).2.2 ∧
      (DB.Migrate insertFailsEnv shopConfig {}).1 =
        some "Could not create 'migration_version' record: pq: could not serialize access" ∧
      ¬ Contains "Could not create 'migration_version' record: pq: could not serialize access"
          "/schema/002_seed.sql" ∧
      ¬ Contains "Could not create 'migration_version' record: pq: could not serialize access"
          (getFileName "/schema/002_seed.sql") ∧
      Event.first "/schema/002_seed.sql" (some "driver: bad connection") ∈
        (DB.Migrate lookupFailsEnv shopConfig {}).2.2 ∧
      (DB.Migrate lookupFailsEnv shopConfig {}).1 =
        some "Could not find migration_version record: driver: bad connection" ∧
      ¬ Contains "Could not find migration_version record: driver: bad connection"
          "/schema/002_seed.sql" ∧
      ¬ Contains "Could not find migration_version record: driver: bad connection"
          (getFileName "/schema/002_seed.sql") := by
  decide

/-- A run whose second file fails to execute names that file in its error. -/
theorem Migrate_error_names_file_witness :
    ((∃ e, Event.read "/schema/002_seed.sql" (some e) ∈
          (DB.Migrate seedFailsEnv shopConfig {}).2.2) ∨
        (∃ sql e, Event.exec "/schema/002_seed.sql" sql (some e) ∈
          (DB.Migrate seedFailsEnv shopConfig {}).2.2)) ∧
      ∃ msg, (DB.Migrate seedFailsEnv shopConfig {}).1 = some msg ∧
        Contains msg "/schema/002_seed.sql" :=
  ⟨Or.inr ⟨"INSERT INTO t VALUES (1)", "pq: permission denied for table t", by decide⟩,
    Migrate_error_names_file seedFailsEnv shopConfig {} "/schema/002_seed.sql"
      (Or.inr ⟨"INSERT INTO t VALUES (1)", "pq: permission denied for table t", by decide⟩)⟩

/-- C10 at a failing input: the flags hold `Migrate` and `PanicOnFailedMigration`,
the connection opens and the migration run started by `OpenConnection` succeeds;
the run started by `Open` itself fails and `Open` returns that failure as an
ordinary error.  When instead the run started by `OpenConnection` fails, `Open`
panics. -/
theorem Open_returns_later_migration_failure (errorf : String → String) :
    (DB.Open { errorf := errorf, run1 := scenarioEnv, run2 := beginFailsEnv } shopConfig
        (DBOpenFlags.Migrate ||| DBOpenFlags.PanicOnFailedMigration) {}).1 =
      Outcome.returned (some ("Could not migrate database 'shop': " ++
        "Could not begin migration transaction: driver: bad connection")) ∧
    (DB.Open { errorf := errorf, run1 := beginFailsEnv, run2 := scenarioEnv } shopConfig
        (DBOpenFlags.Migrate ||| DBOpenFlags.PanicOnFailedMigration) {}).1 =
      Outcome.panicked ("Could not migrate the 'shop' database: " ++
        "Could not begin migration transaction: driver: bad connection") := by
  constructor <;> rfl

/-- The end-to-end scenario: on an empty bookkeeping table the two files are
applied in order and recorded, and a second run adds nothing. -/
theorem end_to_end :
    (DB.Migrate scenarioEnv shopConfig {}).2.1.executed =
        ["CREATE TABLE t(id int)", "INSERT INTO t VALUES (1)"] ∧
      (DB.Migrate scenarioEnv shopConfig {}).2.1.rows.length = 2 ∧
      (DB.Migrate scenarioEnv shopConfig (DB.Migrate scenarioEnv shopConfig {}).2.1).2.1 =
        { (DB.Migrate scenarioEnv shopConfig {}).2.1 with nextID := 5 } := by
  decide

end Dbutil
